import Mathlib

/-!
Verification of the obsForge provider-to-IodaVars conversion core.

The development embeds, as executable Lean definitions, the two TMS
brightness-temperature decoders of the repository:
  * `Tmsrad2Ioda::providerToIodaVars` (src/utils/preproc/Tmsrad2Ioda.h),
    which materializes the thinning mask once and reuses it, and
  * `TmsBrightnessT2Ioda::providerToIodaVars` (the decoder appended after the
    build script in src/utils/preproc/CMakeLists.txt), which re-draws from the
    same advanced pseudo-random stream in its fill pass,
together with their collaborators: the `std::mt19937` generator seeded with the
constant 42, the `std::uniform_real_distribution<>(0.0, 1.0)` draw, the
`timegm`-based per-scan time conversion, the `std::stoi`-based channel-list
parsing, and the `createRepackedFlag` quality-flag codec.

Machine integers are modelled as `Nat`/`Int` with explicit reductions modulo
powers of two where the C++ types wrap.  Floating-point buffers and the
uniform draw are modelled as exact rationals; every comparison proved below
has a margin far above 2^-53, so each decision agrees with the
double-precision computation of the source (see `drawU`).
-/

set_option maxRecDepth 1000000

namespace ObsForge

/-! ## MT19937 (std::mt19937)

The 32-bit Mersenne Twister exactly as specified for `std::mt19937`
(w = 32, n = 624, m = 397, r = 31, a = 0x9908b0df, u = 11, s = 7,
b = 0x9d2c5680, t = 15, c = 0xefc60000, l = 18, f = 1812433253),
which is the generator constructed as `std::mt19937 gen(42)` by both decoders. -/

/-- One step of the seeding recurrence:
`x_i = (1812433253 * (x_{i-1} xor (x_{i-1} >> 30)) + i) mod 2^32`. -/
def mtSeedStep (prev i : Nat) : Nat :=
  (1812433253 * (prev ^^^ (prev >>> 30)) + i) % 4294967296

/-- The tail of the seeded state, produced from the previous word. -/
def mtSeedAux : Nat → Nat → Nat → List Nat
  | _, _, 0 => []
  | prev, i, Nat.succ k =>
      let nxt := mtSeedStep prev i
      nxt :: mtSeedAux nxt (i + 1) k

/-- The 624-word state of `std::mt19937` after construction from a seed. -/
def mtInit (seed : Nat) : List Nat :=
  (seed % 4294967296) :: mtSeedAux (seed % 4294967296) 1 623

/-- The twisted value produced from state words `x` (index `i`), `y`
(index `i+1 mod 624`, the updated word when the index wraps) and `z`
(index `i+397 mod 624`, the updated word once the index wraps):
`((x & 0x80000000) | (y & 0x7fffffff))` shifted and conditionally xored
with `0x9908b0df`. -/
def mtTwistCell (x y z : Nat) : Nat :=
  let w := (x &&& 2147483648) ||| (y &&& 2147483647)
  let v := z ^^^ (w >>> 1)
  if w % 2 = 1 then v ^^^ 2567483615 else v

/-- Twisted words `0 ≤ i < 227`, which the in-place generation step derives
from the old state only (`i + 397 < 624`). -/
def mtPhase1 (old : List Nat) : List Nat :=
  (List.range 227).map fun i =>
    mtTwistCell (old.getD i 0) (old.getD (i + 1) 0) (old.getD (i + 397) 0)

/-- Twisted words `227 ≤ i < 624`.  In the in-place generation step, word `i`
reads the already-updated word `i - 227`; the queue argument holds exactly the
227 most recently produced words, so its head is that word. -/
def mtPhase2 : List (Nat × Nat) → List Nat → List Nat
  | [], _ => []
  | (x, y) :: rest, q =>
      let v := mtTwistCell x y (q.headD 0)
      v :: mtPhase2 rest (q.tail ++ [v])

/-- One full generation step (the "twist") of the 624-word state, with the
wrap-around reads of already-updated words reproduced exactly as in the
sequential in-place update mandated for `std::mt19937`. -/
def mtNextState (old : List Nat) : List Nat :=
  let t1 := mtPhase1 old
  let pairs := (old.drop 227).zip (old.drop 228 ++ [t1.headD 0])
  t1 ++ mtPhase2 pairs t1

/-- Iterated generation steps. -/
def mtStateIter : Nat → List Nat → List Nat
  | 0, s => s
  | Nat.succ k, s => mtStateIter k (mtNextState s)

/-- The output tempering of `std::mt19937`. -/
def mtTemper (y : Nat) : Nat :=
  let y := y ^^^ (y >>> 11)
  let y := y ^^^ ((y <<< 7) &&& 2636928640)
  let y := y ^^^ ((y <<< 15) &&& 4022730752)
  y ^^^ (y >>> 18)

/-- The `k`-th 32-bit output of `std::mt19937` seeded with `seed`
(`k = 0` is the first value returned by `gen()`). -/
def mtOutput (seed k : Nat) : Nat :=
  mtTemper ((mtStateIter (k / 624 + 1) (mtInit seed)).getD (k % 624) 0)

/-! ## The uniform draw (std::uniform_real_distribution<>(0.0, 1.0))

`dis(gen)` returns `std::generate_canonical<double, 53>(gen)`, which for a
32-bit generator on the project's GNU libstdc++ consumes two consecutive
outputs `g0, g1` (`g0` first) and computes `(g0 + g1 * 2^32) / 2^64` in double
precision.  The value is modelled as the exact rational; the double result
differs from it by less than `2^-53`, while every threshold comparison proved
in this file has a margin of at least `2^-20`, so all inclusion decisions
below coincide with those of the compiled source. -/

/-- The numerator of the `k`-th uniform draw: two generator outputs combined,
the first one least significant. -/
def drawNum (seed k : Nat) : Nat :=
  mtOutput seed (2 * k) + 4294967296 * mtOutput seed (2 * k + 1)

/-- The `k`-th value of `dis(gen)` for a generator seeded with `seed`,
as an exact rational in `[0, 1)`: the combined numerator over `2^64`. -/
def drawU (seed k : Nat) : ℚ :=
  mkRat (drawNum seed k) 18446744073709551616

/-! ## Reproducible thinning

Both decoders draw `dis(gen)` once per (spot, scan) cell, outer loop over
spots, inner loop over scans, and include the cell iff the draw is strictly
greater than the configured threshold.  The draw counter is threaded
explicitly: the cell visited `n`-th consumes draw `n`. -/

/-- One scan line of the counting pass of Tmsrad2Ioda: starting at draw
counter `ctr`, decide `n` cells and return the mask row (1 = included,
matching the int mask of the source) together with the advanced counter. -/
def thinRow (t : ℚ) (u : Nat → ℚ) : Nat → Nat → List Nat × Nat
  | ctr, 0 => ([], ctr)
  | ctr, Nat.succ n =>
      let cell : Nat := if u ctr > t then 1 else 0
      let p := thinRow t u (ctr + 1) n
      (cell :: p.1, p.2)

/-- The full counting pass: one row per spot, rows in spot order, the shared
draw counter advancing across rows. -/
def thinRows (t : ℚ) (u : Nat → ℚ) : Nat → Nat → Nat → List (List Nat) × Nat
  | ctr, 0, _ => ([], ctr)
  | ctr, Nat.succ i, scans =>
      let p := thinRow t u ctr scans
      let q := thinRows t u p.2 i scans
      (p.1 :: q.1, q.2)

/-- Number of included cells of a mask (the source increments `nlocs` for
every cell it sets to 1 during the same traversal). -/
def countOnes (m : List (List Nat)) : Nat :=
  (m.map fun r => r.count 1).sum

/-- The inclusion mask computed by Tmsrad2Ioda::providerToIodaVars: the
generator is constructed as `std::mt19937 gen(42)` inside every call, so the
stream is the fixed `drawU 42` independent of the input file. -/
def tmsradMask (dimspot dimscan : Nat) (t : ℚ) : List (List Nat) :=
  (thinRows t (drawU 42) 0 dimspot dimscan).1

/-! ## Flag codec (Tmsrad2Ioda::createRepackedFlag) -/

/-- Bit 7 of the BUFR overall quality flag: outlier detection for internal
calibration target spots. -/
def ma_ICT : Nat := 1 <<< 6
/-- Bit 8: outlier detection for noise diode calibration spots. -/
def ma_ND : Nat := 1 <<< 7
/-- Bit 9: outlier detection for deep space calibration spots. -/
def ma_Cold : Nat := 1 <<< 8
/-- Bit 13: spacecraft is in an active maneuver. -/
def ma_Manv : Nat := 1 <<< 12
/-- Bit 14: solar intrusion. -/
def ma_SoInt : Nat := 1 <<< 13
/-- Bit 15: lunar intrusion. -/
def ma_LuInt : Nat := 1 <<< 14
/-- Bit 4: radio frequency interference. -/
def ma_RFI : Nat := 1 <<< 3
/-- Bit 5: internal cal target - noise diode consistency. -/
def ma_ICTND : Nat := 1 <<< 4
/-- Bit 6: attitude quality. -/
def ma_AttQ : Nat := 1 <<< 5
/-- Bit 3: outlier timestamp. -/
def ma_time : Nat := 1 <<< 2

/-- The OR of all bad-bit positions of the provider. -/
def MASK_ALL : Nat :=
  ma_time ||| ma_RFI ||| ma_ICTND ||| ma_AttQ ||| ma_ICT |||
    ma_ND ||| ma_Cold ||| ma_Manv ||| ma_SoInt ||| ma_LuInt

/-- The per-cell body of Tmsrad2Ioda::createRepackedFlag: 1 (bad) iff the raw
combinedQualityFlag value has a bad bit set or the flagSDRTX byte is nonzero,
0 (good) otherwise. -/
def repackOne (raw aux : Nat) : Int :=
  if (raw &&& MASK_ALL) ≠ 0 ∨ aux ≠ 0 then 1 else 0

/-- Tmsrad2Ioda::createRepackedFlag over whole flattened buffers (the source
loops index `i` over both vectors of equal size). -/
def createRepackedFlag (rawflag flag1 : List Nat) : List Int :=
  rawflag.zipWith repackOne flag1

/-! ## Time conversion

Both decoders fill a `std::tm` per scan and call `timegm`, which interprets
the fields as UTC in the proleptic Gregorian calendar and returns seconds
since 1970-01-01T00:00:00Z, normalizing out-of-range fields arithmetically. -/

/-- Days from 1970-01-01 to the first day of month `m` (1-based) of year `y`
in the proleptic Gregorian calendar (the civil-from-days arithmetic used by
timegm implementations). -/
def daysFromCivil (y m : Int) : Int :=
  let yy := if m ≤ 2 then y - 1 else y
  let era := Int.fdiv yy 400
  let yoe := yy - era * 400
  let mp := Int.emod (m + 9) 12
  let doy := Int.fdiv (153 * mp + 2) 5
  let doe := yoe * 365 + Int.fdiv yoe 4 - Int.fdiv yoe 100 + doy
  era * 146097 + doe - 719468

/-- Model of timegm on a std::tm: year is 1900-based, month 0-based; month
and day values outside their ranges are normalized (a tm_mday of 0 is the day
before the first of the month); hours, minutes and seconds contribute
linearly. -/
def timegmM (tmYear tmMon tmMday tmHour tmMin tmSec : Int) : Int :=
  let y := 1900 + tmYear + Int.fdiv tmMon 12
  let m := Int.emod tmMon 12 + 1
  (daysFromCivil y m + (tmMday - 1)) * 86400 + tmHour * 3600 + tmMin * 60 + tmSec

/-- The per-scan conversion of Tmsrad2Ioda: tm_year = Year - 1900,
tm_mon = Month - 1, tm_mday = Day, and a seconds value of 60 (leap second)
clamped to 59 before the call. -/
def tmsradScanEpoch (y mo d h mi s : Nat) : Int :=
  timegmM ((y : Int) - 1900) ((mo : Int) - 1) (d : Int) (h : Int) (mi : Int)
    (if s = 60 then 59 else (s : Int))

/-- The per-scan conversion of TmsBrightnessT2Ioda: tm_year = Year - 1970 and
tm_mday = Day - 1, deviating from the std::tm convention that timegm expects
(the comments of the source call these "years since 1970" and "days since 1st
day of the month"); the leap-second clamp is the same. -/
def tmsBrightnessScanEpoch (y mo d h mi s : Nat) : Int :=
  timegmM ((y : Int) - 1970) ((mo : Int) - 1) ((d : Int) - 1) (h : Int) (mi : Int)
    (if s = 60 then 59 else (s : Int))

/-! ## The observation table (IodaVars) -/

/-- The common output table.  Modelled from the spec: the class
obsforge::preproc::iodavars::IodaVars lives in NetCDFToIodaConverter.h, which
is not under src/; section 3 of the spec fixes locationCount and channelCount
at construction, per-location columns latitude, longitude and epoch-seconds
datetime, named per-location float and int metadata columns, per-cell columns
observed value, observation error and pre-existing quality flag, the selected
channel identifiers, and the reference-epoch string.  Floating columns are
modelled as exact rationals. -/
structure IodaVars where
  location : Nat
  channel : Nat
  latitude : List ℚ
  longitude : List ℚ
  datetime : List ℚ
  obsVal : List ℚ
  obsError : List ℚ
  preQc : List Int
  floatMetadata : List (List ℚ)
  intMetadata : List (List Int)
  channelValues : List Int
  referenceDate : String
deriving DecidableEq

/-- Modelled from the spec: the four-argument constructor
IodaVars(nobs, nchan, fltNames, intNames) allocates every per-location column
with locationCount entries and every per-cell column with
locationCount * channelCount entries (spec section 3 invariant); numeric
entries start at the modelled construction default 0. -/
def IodaVars.make (nlocs nchan : Nat) (fltNames intNames : List String) : IodaVars where
  location := nlocs
  channel := nchan
  latitude := List.replicate nlocs 0
  longitude := List.replicate nlocs 0
  datetime := List.replicate nlocs 0
  obsVal := List.replicate (nlocs * nchan) 0
  obsError := List.replicate (nlocs * nchan) 0
  preQc := List.replicate (nlocs * nchan) 0
  floatMetadata := List.replicate nlocs (List.replicate fltNames.length 0)
  intMetadata := List.replicate nlocs (List.replicate intNames.length 0)
  channelValues := List.replicate nchan 0
  referenceDate := ""

/-- Modelled from the spec: the three-argument constructor
IodaVars(nobs, fltNames, intNames) used by TmsBrightnessT2Ioda, with the
channel count defaulting to 1 (matching the explicit channel count 1 that
Tmsrad2Ioda passes for the same empty-table purpose). -/
def IodaVars.make3 (nlocs : Nat) (fltNames intNames : List String) : IodaVars :=
  IodaVars.make nlocs 1 fltNames intNames

/-- Eigen resize on a column: reallocates without preserving contents;
modelled as a fresh default-valued column of the new size. -/
def resizeCol (n : Nat) : List ℚ :=
  List.replicate n 0

/-- Eigen resize of the int-valued quality column. -/
def resizeColInt (n : Nat) : List Int :=
  List.replicate n 0

/-! ## The NetCDF input and the configuration -/

/-- Exceptions that can cross the providerToIodaVars boundary in the model:
the netCDF null-object exceptions thrown by NcDim::getSize and NcVar::getVar
on absent dimensions and variables, and the std::invalid_argument thrown by
std::stoi on a token without digits. -/
inductive DecodeErr where
  | ncNullDim
  | ncNullVar
  | stoiInvalid
deriving DecidableEq

/-- The inputs the TMS decoders read from a NetCDF file.  An absent dimension
or variable is none.  Flattened buffers are modelled as total functions from
the flat index; reading a std::vector out of range is undefined behavior in
the source, the model returns the function value at that index. -/
structure TmsNcFile where
  openable : Bool
  dimSpots : Option Nat
  dimScans : Option Nat
  dimChannels : Option Nat
  longitude : Option (Nat → ℚ)
  latitude : Option (Nat → ℚ)
  brightnessTemperature : Option (Nat → ℚ)
  sensorViewAngle : Option (Nat → ℚ)
  sensorZenithAngle : Option (Nat → ℚ)
  sensorAzimuthAngle : Option (Nat → ℚ)
  lunarZenithAngle : Option (Nat → ℚ)
  lunarAzimuthAngle : Option (Nat → ℚ)
  solarZenithAngle : Option (Nat → ℚ)
  solarAzimuthAngle : Option (Nat → ℚ)
  year : Option (Nat → Nat)
  month : Option (Nat → Nat)
  day : Option (Nat → Nat)
  hour : Option (Nat → Nat)
  minute : Option (Nat → Nat)
  second : Option (Nat → Nat)
  combinedQualityFlag : Option (Nat → Nat)
  flagSDRTX : Option (Nat → Nat)

/-- The configuration keys both decoders read: the comma-separated channel
string and the thinning threshold (a float in the source, modelled exact). -/
structure TmsConfig where
  channel : String
  thinningThreshold : ℚ

/-- NcDim::getSize: throws the null-dimension exception when the dimension
was not found by name. -/
def getDimSize : Option Nat → Except DecodeErr Nat
  | some n => .ok n
  | none => .error .ncNullDim

/-- NcVar::getVar into a buffer: throws the null-object exception when the
variable was not found by name. -/
def getVarBuf {α : Type} : Option α → Except DecodeErr α
  | some v => .ok v
  | none => .error .ncNullVar

/-! ## Channel-list parsing -/

/-- Value of a digit string. -/
def digitsVal (l : List Char) : Nat :=
  l.foldl (fun a c => 10 * a + (c.toNat - 48)) 0

/-- Model of std::stoi base 10: skip leading whitespace, accept one optional
sign, convert the longest digit prefix and ignore anything after it; throw
std::invalid_argument when no digit is found. -/
def stoiM (cs0 : List Char) : Except DecodeErr Int :=
  let cs := cs0.dropWhile Char.isWhitespace
  let p : Int × List Char :=
    match cs with
    | '-' :: rest => (-1, rest)
    | '+' :: rest => (1, rest)
    | _ => (1, cs)
  let ds := p.2.takeWhile Char.isDigit
  if ds.isEmpty then .error .stoiInvalid
  else .ok (p.1 * digitsVal ds)

/-- Split a character list at every comma, keeping empty pieces. -/
def splitCommaAux : List Char → List Char → List (List Char)
  | [], cur => [cur.reverse]
  | c :: rest, cur =>
      if c = ',' then cur.reverse :: splitCommaAux rest []
      else splitCommaAux rest (c :: cur)

/-- The tokens produced by the getline(ss, substr, comma) loop of the source:
the pieces between delimiters, except that an empty input yields no token and
a trailing delimiter does not yield a final empty token (getline fails once
the stream is exhausted). -/
def getlineTokens (s : String) : List (List Char) :=
  if s.data.isEmpty then []
  else if s.data.getLast? = some ',' then (splitCommaAux s.data []).dropLast
  else splitCommaAux s.data []

/-- The channel-selection loop shared by both decoders: stoi on every token,
in order, no deduplication, no bounds check. -/
def parseChannels (s : String) : Except DecodeErr (List Int) :=
  (getlineTokens s).mapM stoiM

/-- Decidable equality of decode results, for concrete evaluations. -/
instance exceptDecEq {ε α : Type} [DecidableEq ε] [DecidableEq α] :
    DecidableEq (Except ε α) := fun a b =>
  match a, b with
  | .error x, .error y =>
      match decEq x y with
      | isTrue h => isTrue (by rw [h])
      | isFalse h => isFalse (by intro hh; cases hh; exact h rfl)
  | .ok x, .ok y =>
      match decEq x y with
      | isTrue h => isTrue (by rw [h])
      | isFalse h => isFalse (by intro hh; cases hh; exact h rfl)
  | .error _, .ok _ => isFalse (by intro hh; cases hh)
  | .ok _, .error _ => isFalse (by intro hh; cases hh)

/-- C++ size_t arithmetic for `size_t ch = channels[k] - 1`: a negative value
wraps modulo 2 to the 64. -/
def toSizeT (z : Int) : Nat :=
  (Int.emod z 18446744073709551616).toNat

/-! ## Decoder: Tmsrad2Ioda (src/utils/preproc/Tmsrad2Ioda.h) -/

/-- The dimensions and flattened buffers read by
Tmsrad2Ioda::providerToIodaVars after the file opened. -/
structure TmsradBuffers where
  dimspot : Nat
  dimscan : Nat
  dimchan : Nat
  lon : Nat → ℚ
  lat : Nat → ℚ
  tb : Nat → ℚ
  sensorView : Nat → ℚ
  sensorZenith : Nat → ℚ
  sensorAzimuth : Nat → ℚ
  lunarZenith : Nat → ℚ
  lunarAzimuth : Nat → ℚ
  solarZenith : Nat → ℚ
  solarAzimuth : Nat → ℚ
  yr : Nat → Nat
  mo : Nat → Nat
  dy : Nat → Nat
  hr : Nat → Nat
  mi : Nat → Nat
  se : Nat → Nat
  cqf : Nat → Nat
  sdrtx : Nat → Nat

/-- The dimension lookups and variable reads of Tmsrad2Ioda, in source order;
each can throw the netCDF null-object exception. -/
def tmsradRead (f : TmsNcFile) : Except DecodeErr TmsradBuffers := do
  let dimspot ← getDimSize f.dimSpots
  let dimscan ← getDimSize f.dimScans
  let dimchan ← getDimSize f.dimChannels
  let lon ← getVarBuf f.longitude
  let lat ← getVarBuf f.latitude
  let tb ← getVarBuf f.brightnessTemperature
  let sva ← getVarBuf f.sensorViewAngle
  let sze ← getVarBuf f.sensorZenithAngle
  let saz ← getVarBuf f.sensorAzimuthAngle
  let lze ← getVarBuf f.lunarZenithAngle
  let laz ← getVarBuf f.lunarAzimuthAngle
  let soz ← getVarBuf f.solarZenithAngle
  let soa ← getVarBuf f.solarAzimuthAngle
  let yr ← getVarBuf f.year
  let mo ← getVarBuf f.month
  let dy ← getVarBuf f.day
  let hr ← getVarBuf f.hour
  let mi ← getVarBuf f.minute
  let se ← getVarBuf f.second
  let cqf ← getVarBuf f.combinedQualityFlag
  let sdrtx ← getVarBuf f.flagSDRTX
  return { dimspot := dimspot, dimscan := dimscan, dimchan := dimchan,
           lon := lon, lat := lat, tb := tb,
           sensorView := sva, sensorZenith := sze, sensorAzimuth := saz,
           lunarZenith := lze, lunarAzimuth := laz,
           solarZenith := soz, solarAzimuth := soa,
           yr := yr, mo := mo, dy := dy, hr := hr, mi := mi, se := se,
           cqf := cqf, sdrtx := sdrtx }

/-- The float metadata names of Tmsrad2Ioda, fixing the column order of the
seven per-location metadata writes. -/
def tmsradFloatMetadataNames : List String :=
  ["lunarAzimuthAngle", "lunarZenithAngle", "sensorAzimuthAngle",
   "sensorViewAngle", "sensorZenithAngle", "solarAzimuthAngle",
   "solarZenithAngle"]

/-- One fill-loop cell of Tmsrad2Ioda: skipped unless the materialized mask
holds 1; otherwise the per-location columns are written at row loc, the seven
metadata values in declared order, and for every selected channel the
observed value and the repacked quality flag at nchan * loc + k; then loc
advances.  The observation-error column is not touched by this loop. -/
def tmsradFillCell (b : TmsradBuffers) (channels : List Int)
    (epochTime : Nat → Int) (mask : List (List Nat))
    (st : IodaVars × Nat) (ij : Nat × Nat) : IodaVars × Nat :=
  let iv := st.1
  let loc := st.2
  let i := ij.1
  let j := ij.2
  let nchan := channels.length
  if ((mask.getD i []).getD j 0) ≠ 1 then st
  else
    let iv :=
      { iv with
        latitude := iv.latitude.set loc (b.lat (i * b.dimscan + j))
        longitude := iv.longitude.set loc (b.lon (i * b.dimscan + j))
        datetime := iv.datetime.set loc ((epochTime j : ℚ))
        floatMetadata := iv.floatMetadata.set loc
          [b.lunarAzimuth (i * b.dimscan + j), b.lunarZenith (i * b.dimscan + j),
           b.sensorAzimuth (i * b.dimscan + j), b.sensorView (i * b.dimscan + j),
           b.sensorZenith (i * b.dimscan + j), b.solarAzimuth (i * b.dimscan + j),
           b.solarZenith (i * b.dimscan + j)] }
    let iv := (List.range nchan).foldl
      (fun iv k =>
        let ch := toSizeT (channels.getD k 0 - 1)
        let idx := (i * b.dimscan + j) * b.dimchan + ch
        { iv with
          obsVal := iv.obsVal.set (nchan * loc + k) (b.tb idx)
          preQc := iv.preQc.set (nchan * loc + k)
            (repackOne (b.cqf idx) (b.sdrtx idx)) })
      iv
    (iv, loc + 1)

/-- The computation of Tmsrad2Ioda::providerToIodaVars after the reads: per
scan epoch times, repacked flags, channel selection (stoi can throw),
materialized thinning mask from the generator seeded 42, table allocation
sized by the counting pass, and the fill pass reading the same mask. -/
def tmsradCompute (cfg : TmsConfig) (b : TmsradBuffers) :
    Except DecodeErr IodaVars := do
  let epochTime : Nat → Int := fun j =>
    tmsradScanEpoch (b.yr j) (b.mo j) (b.dy j) (b.hr j) (b.mi j) (b.se j)
  let channels ← parseChannels cfg.channel
  let nchan := channels.length
  let mask := tmsradMask b.dimspot b.dimscan cfg.thinningThreshold
  let nlocs := countOnes mask
  let iv0 := IodaVars.make nlocs nchan tmsradFloatMetadataNames []
  let iv0 := { iv0 with
    referenceDate := "seconds since 1970-01-01T00:00:00Z"
    channelValues := (List.range nchan).foldl
      (fun cv k => cv.set k (channels.getD k 0)) iv0.channelValues }
  let cells := (List.range b.dimspot).flatMap
    fun i => (List.range b.dimscan).map fun j => (i, j)
  let res := cells.foldl (tmsradFillCell b channels epochTime mask) (iv0, 0)
  return res.1

/-- Embedding of Tmsrad2Ioda::providerToIodaVars: a file that fails to open
is caught and yields the empty IodaVars(0, 1) table; every later failure
escapes. -/
def tmsrad2Ioda (cfg : TmsConfig) (f : TmsNcFile) : Except DecodeErr IodaVars :=
  if f.openable = false then .ok (IodaVars.make 0 1 [] [])
  else do
    let b ← tmsradRead f
    tmsradCompute cfg b

/-! ## Decoder: TmsBrightnessT2Ioda
(the converter appended after the build script in
src/utils/preproc/CMakeLists.txt) -/

/-- The dimensions and flattened buffers read by
TmsBrightnessT2Ioda::providerToIodaVars: longitude, latitude, the brightness
temperature, the raw combinedQualityFlag (a vector of int, used directly as
the quality column without repacking) and the six per-scan time components. -/
structure TbrBuffers where
  dimspot : Nat
  dimscan : Nat
  dimchan : Nat
  lon : Nat → ℚ
  lat : Nat → ℚ
  tb : Nat → ℚ
  cqf : Nat → Int
  yr : Nat → Nat
  mo : Nat → Nat
  dy : Nat → Nat
  hr : Nat → Nat
  mi : Nat → Nat
  se : Nat → Nat

/-- The reads of TmsBrightnessT2Ioda, in source order.  The int-valued
quality buffer is the same file variable as the uint16 one of Tmsrad2Ioda;
the model widens it. -/
def tbrRead (f : TmsNcFile) : Except DecodeErr TbrBuffers := do
  let dimspot ← getDimSize f.dimSpots
  let dimscan ← getDimSize f.dimScans
  let dimchan ← getDimSize f.dimChannels
  let lon ← getVarBuf f.longitude
  let lat ← getVarBuf f.latitude
  let tb ← getVarBuf f.brightnessTemperature
  let cqf ← getVarBuf f.combinedQualityFlag
  let yr ← getVarBuf f.year
  let mo ← getVarBuf f.month
  let dy ← getVarBuf f.day
  let hr ← getVarBuf f.hour
  let mi ← getVarBuf f.minute
  let se ← getVarBuf f.second
  return { dimspot := dimspot, dimscan := dimscan, dimchan := dimchan,
           lon := lon, lat := lat, tb := tb,
           cqf := fun idx => (cqf idx : Int),
           yr := yr, mo := mo, dy := dy, hr := hr, mi := mi, se := se }

/-- One fill-loop cell of TmsBrightnessT2Ioda.  Unlike Tmsrad2Ioda there is
no materialized mask: the loop draws `dis(gen)` again from the same advanced
generator and skips the cell when the draw is less than or equal to the
threshold, so the state carries the draw counter; a skipped cell still
consumed its draw.  Rows are written at loc, which can run past the
allocation sized by the counting pass; such writes are out of bounds in the
source (undefined behavior) and are dropped by List.set in the model. -/
def tbrFillCell (b : TbrBuffers) (channels : List Int) (t : ℚ) (u : Nat → ℚ)
    (epochTime : Nat → Int) (st : IodaVars × Nat × Nat) (ij : Nat × Nat) :
    IodaVars × Nat × Nat :=
  let iv := st.1
  let loc := st.2.1
  let ctr := st.2.2
  let i := ij.1
  let j := ij.2
  let nchan := channels.length
  if u ctr ≤ t then (iv, loc, ctr + 1)
  else
    let iv :=
      { iv with
        latitude := iv.latitude.set loc (b.lat (i * b.dimscan + j))
        longitude := iv.longitude.set loc (b.lon (i * b.dimscan + j))
        datetime := iv.datetime.set loc ((epochTime j : ℚ)) }
    let iv := (List.range nchan).foldl
      (fun iv k =>
        let ch := toSizeT (channels.getD k 0 - 1)
        let idx := (i * b.dimscan + j) * b.dimchan + ch
        { iv with
          obsVal := iv.obsVal.set (nchan * loc + k) (b.tb idx)
          obsError := iv.obsError.set (nchan * loc + k) 2
          preQc := iv.preQc.set (nchan * loc + k) (b.cqf idx) })
      iv
    (iv, loc + 1, ctr + 1)

/-- The computation of TmsBrightnessT2Ioda::providerToIodaVars after the
reads: per-scan epoch times with the deviant 1970/day-minus-one bases,
channel selection, a counting pass over fresh draws of the generator seeded
42, a table allocated with the three-argument constructor then resized to
nlocs times nchan, and a fill pass that keeps drawing from the same stream
where the counting pass stopped. -/
def tbrCompute (cfg : TmsConfig) (b : TbrBuffers) : Except DecodeErr IodaVars := do
  let epochTime : Nat → Int := fun j =>
    tmsBrightnessScanEpoch (b.yr j) (b.mo j) (b.dy j) (b.hr j) (b.mi j) (b.se j)
  let channels ← parseChannels cfg.channel
  let nchan := channels.length
  let t := cfg.thinningThreshold
  let countPass := thinRows t (drawU 42) 0 b.dimspot b.dimscan
  let nlocs := countOnes countPass.1
  let iv0 := IodaVars.make3 nlocs [] []
  let iv0 := { iv0 with
    channel := nchan
    obsVal := resizeCol (nlocs * nchan)
    obsError := resizeCol (nlocs * nchan)
    preQc := resizeColInt (nlocs * nchan)
    referenceDate := "seconds since 1970-01-01T00:00:00Z"
    channelValues := (List.range nchan).foldl
      (fun cv k => cv.set k (channels.getD k 0)) (IodaVars.make3 nlocs [] []).channelValues }
  let cells := (List.range b.dimspot).flatMap
    fun i => (List.range b.dimscan).map fun j => (i, j)
  let res := cells.foldl (tbrFillCell b channels t (drawU 42) epochTime)
    (iv0, 0, countPass.2)
  return res.1

/-- Embedding of TmsBrightnessT2Ioda::providerToIodaVars: a file that fails
to open is caught and yields the empty three-argument table; every later
failure escapes. -/
def tmsBrightnessT2Ioda (cfg : TmsConfig) (f : TmsNcFile) :
    Except DecodeErr IodaVars :=
  if f.openable = false then .ok (IodaVars.make3 0 [] [])
  else do
    let b ← tbrRead f
    tbrCompute cfg b

/-! ## Statement-side definitions and concrete scenarios -/

/-- The shape invariant of a decode result, following the spec wording: every
per-location column has locationCount entries and the per-cell observed-value
and quality columns have locationCount times channelCount entries; an escaped
exception produced no table. -/
def tableShapeOk : Except DecodeErr IodaVars → Prop
  | .error _ => True
  | .ok iv =>
      iv.latitude.length = iv.location ∧ iv.longitude.length = iv.location ∧
        iv.datetime.length = iv.location ∧
        iv.obsVal.length = iv.location * iv.channel ∧
        iv.preQc.length = iv.location * iv.channel

/-- The bad bit positions named by the claim for this provider: 1-based
combinedQualityFlag bits 3, 4, 5, 6, 7, 8, 9, 13, 14 and 15, written 0-based. -/
def c3MappedBits : List Nat := [2, 3, 4, 5, 6, 7, 8, 12, 13, 14]

/-- The bad-bit mask spelled from the claim wording, to be compared with the
MASK_ALL the source builds from shifted constants. -/
def c3SpecMask : Nat := (c3MappedBits.map fun b => 2 ^ b).sum

/-- A fully populated input file holding the given buffers: every dimension
and variable present, the file readable. -/
def fileOfBuffers (b : TmsradBuffers) : TmsNcFile where
  openable := true
  dimSpots := some b.dimspot
  dimScans := some b.dimscan
  dimChannels := some b.dimchan
  longitude := some b.lon
  latitude := some b.lat
  brightnessTemperature := some b.tb
  sensorViewAngle := some b.sensorView
  sensorZenithAngle := some b.sensorZenith
  sensorAzimuthAngle := some b.sensorAzimuth
  lunarZenithAngle := some b.lunarZenith
  lunarAzimuthAngle := some b.lunarAzimuth
  solarZenithAngle := some b.solarZenith
  solarAzimuthAngle := some b.solarAzimuth
  year := some b.yr
  month := some b.mo
  day := some b.dy
  hour := some b.hr
  minute := some b.mi
  second := some b.se
  combinedQualityFlag := some b.cqf
  flagSDRTX := some b.sdrtx

/-- Scenario buffers for the end-to-end layout check: a 2 spot by 3 scan by
2 channel grid whose brightness-temperature buffer is injective in the flat
index, so equal cell values identify equal flat indices. -/
def c2Buffers : TmsradBuffers where
  dimspot := 2
  dimscan := 3
  dimchan := 2
  lon := fun idx => ((20 + idx : Nat) : ℚ)
  lat := fun idx => ((50 + idx : Nat) : ℚ)
  tb := fun idx => ((100 + idx : Nat) : ℚ)
  sensorView := fun _ => 1
  sensorZenith := fun _ => 2
  sensorAzimuth := fun _ => 3
  lunarZenith := fun _ => 4
  lunarAzimuth := fun _ => 5
  solarZenith := fun _ => 6
  solarAzimuth := fun _ => 7
  yr := fun _ => 2025
  mo := fun _ => 4
  dy := fun _ => 28
  hr := fun _ => 18
  mi := fun _ => 0
  se := fun _ => 0
  cqf := fun _ => 0
  sdrtx := fun _ => 0

/-- The 2 by 3 by 2 scenario file. -/
def c2File : TmsNcFile := fileOfBuffers c2Buffers

/-- Configuration of the end-to-end scenario: channels 2 then 1 (order
preserved), threshold 0. -/
def c2Cfg : TmsConfig where
  channel := "2,1"
  thinningThreshold := 0

/-- The observed-value column the claim predicts for the 2 by 3 by 2 grid at
threshold 0: every cell kept, location rank loc = i * 3 + j in outer-spot
inner-scan order, table index 2 * loc + k holding raw flat element
(i * scanCount + j) * rawChannelCount + (channels k - 1). -/
def c2ExpectedObsVal : List ℚ :=
  (List.range 2).flatMap fun i =>
    (List.range 3).flatMap fun j =>
      (List.range 2).map fun k =>
        c2Buffers.tb
          ((i * 3 + j) * 2 + ((([2, 1] : List Int).getD k 0) - 1).toNat)

/-- Scenario buffers on a 1 by 1 by 1 grid. -/
def c1Buffers : TmsradBuffers where
  dimspot := 1
  dimscan := 1
  dimchan := 1
  lon := fun _ => 3
  lat := fun _ => 7
  tb := fun _ => 250
  sensorView := fun _ => 0
  sensorZenith := fun _ => 0
  sensorAzimuth := fun _ => 0
  lunarZenith := fun _ => 0
  lunarAzimuth := fun _ => 0
  solarZenith := fun _ => 0
  solarAzimuth := fun _ => 0
  yr := fun _ => 2025
  mo := fun _ => 1
  dy := fun _ => 1
  hr := fun _ => 0
  mi := fun _ => 0
  se := fun _ => 0
  cqf := fun _ => 0
  sdrtx := fun _ => 0

/-- The 1 by 1 by 1 scenario file. -/
def c1File : TmsNcFile := fileOfBuffers c1Buffers

/-- Configuration with thinning threshold one half, between the first draw of
the stream (about 0.7965) and the second (about 0.1834). -/
def c1Cfg : TmsConfig where
  channel := "1"
  thinningThreshold := mkRat 1 2

/-- A readable file whose spots dimension is absent. -/
def c6FileNoDim : TmsNcFile :=
  { fileOfBuffers c1Buffers with dimSpots := none }

/-- A readable file whose longitude variable is absent. -/
def c6FileNoVar : TmsNcFile :=
  { fileOfBuffers c1Buffers with longitude := none }

/-- A file that cannot be opened. -/
def c6FileClosed : TmsNcFile :=
  { fileOfBuffers c1Buffers with openable := false }

/-- Scenario buffers with 2 raw channels on a 1 by 1 grid. -/
def c8Buffers : TmsradBuffers :=
  { c1Buffers with dimchan := 2, tb := fun idx => ((100 + idx : Nat) : ℚ) }

/-- The 1 by 1 by 2 scenario file. -/
def c8File : TmsNcFile := fileOfBuffers c8Buffers

/-- Configuration selecting channel 3 of a 2-channel file, threshold 0. -/
def c8Cfg : TmsConfig where
  channel := "3"
  thinningThreshold := 0

/-- Configuration with a non-integer channel token. -/
def c8BadCfg : TmsConfig where
  channel := "1,x"
  thinningThreshold := 0

/-- Scenario buffers on a 1 by 1 by 1 grid with epoch time components. -/
def c9Buffers : TmsradBuffers :=
  { c1Buffers with
      lat := fun _ => 1
      lon := fun _ => 2
      tb := fun _ => 5
      yr := fun _ => 1970 }

/-- The quality scenario file. -/
def c9File : TmsNcFile := fileOfBuffers c9Buffers

/-- Configuration selecting channel 1, threshold 0. -/
def c9Cfg : TmsConfig where
  channel := "1"
  thinningThreshold := 0

/-- The table Tmsrad2Ioda produces on the quality scenario file. -/
def c9Table : IodaVars where
  location := 1
  channel := 1
  latitude := [1]
  longitude := [2]
  datetime := [0]
  obsVal := [5]
  obsError := [0]
  preQc := [0]
  floatMetadata := [[0, 0, 0, 0, 0, 0, 0]]
  intMetadata := [[]]
  channelValues := [1]
  referenceDate := "seconds since 1970-01-01T00:00:00Z"

/-- The quality scenario with different data values under the same shape. -/
def c10BuffersB : TmsradBuffers :=
  { c9Buffers with lat := fun _ => 9, tb := fun _ => 77 }

/-- The second determinism scenario file. -/
def c10FileB : TmsNcFile := fileOfBuffers c10BuffersB

/-- The table Tmsrad2Ioda produces on the second determinism scenario. -/
def c10TableB : IodaVars :=
  { c9Table with latitude := [9], obsVal := [77] }

/-! ## Lemmas about the thinning passes -/

theorem thinRow_length (t : ℚ) (u : Nat → ℚ) (c n : Nat) :
    (thinRow t u c n).1.length = n := by
  induction n generalizing c with
  | zero => rfl
  | succ n ih => simp [thinRow, ih]

theorem thinRow_snd (t : ℚ) (u : Nat → ℚ) (c n : Nat) :
    (thinRow t u c n).2 = c + n := by
  induction n generalizing c with
  | zero => simp [thinRow]
  | succ n ih => simp [thinRow, ih]; omega

theorem thinRow_getD (t : ℚ) (u : Nat → ℚ) (c n j : Nat) (h : j < n) :
    (thinRow t u c n).1.getD j 0 = if u (c + j) > t then 1 else 0 := by
  induction n generalizing c j with
  | zero => omega
  | succ n ih =>
      cases j with
      | zero => simp [thinRow]
      | succ j =>
          have hj : j < n := by omega
          have hc : c + 1 + j = c + (j + 1) := by omega
          simpa [thinRow, hc] using ih (c + 1) j hj

theorem thinRows_length (t : ℚ) (u : Nat → ℚ) (c i s : Nat) :
    (thinRows t u c i s).1.length = i := by
  induction i generalizing c with
  | zero => rfl
  | succ i ih => simp [thinRows, ih]

theorem thinRows_snd (t : ℚ) (u : Nat → ℚ) (c i s : Nat) :
    (thinRows t u c i s).2 = c + i * s := by
  induction i generalizing c with
  | zero => simp [thinRows]
  | succ i ih =>
      simp [thinRows, thinRow_snd, ih]
      ring

theorem thinRows_getD (t : ℚ) (u : Nat → ℚ) (c i s i0 : Nat) (h : i0 < i) :
    (thinRows t u c i s).1.getD i0 [] = (thinRow t u (c + i0 * s) s).1 := by
  induction i generalizing c i0 with
  | zero => omega
  | succ i ih =>
      cases i0 with
      | zero => simp [thinRows]
      | succ i0 =>
          have hi : i0 < i := by omega
          have hc : c + s + i0 * s = c + (i0 + 1) * s := by ring
          simpa [thinRows, thinRow_snd, hc] using ih (c + s) i0 hi

/-- The cell formula of the materialized counting pass: cell (i, j) is decided
by draw number i * dimscan + j. -/
theorem thin_cell (t : ℚ) (u : Nat → ℚ) (dimspot dimscan i j : Nat)
    (hi : i < dimspot) (hj : j < dimscan) :
    ((thinRows t u 0 dimspot dimscan).1.getD i []).getD j 0
      = if u (i * dimscan + j) > t then 1 else 0 := by
  rw [thinRows_getD t u 0 dimspot dimscan i hi]
  simpa using thinRow_getD t u (0 + i * dimscan) dimscan j hj

/-! ## Generic helpers -/

/-- A predicate preserved by every fold step holds of the fold result. -/
theorem foldl_preserve {α σ : Type} (P : σ → Prop) (f : σ → α → σ)
    (h : ∀ s a, P s → P (f s a)) :
    ∀ (l : List α) (s : σ), P s → P (l.foldl f s) := by
  intro l
  induction l with
  | nil => intro s hs; exact hs
  | cons a l ih => intro s hs; exact ih _ (h s a hs)

/-- Inversion of a successful Except bind. -/
theorem ebind_ok {ε α β : Type} {e : Except ε α} {g : α → Except ε β} {x : β}
    (h : e >>= g = .ok x) : ∃ a, e = .ok a ∧ g a = .ok x := by
  cases e with
  | error err =>
      exact absurd h (by simp [Bind.bind, Except.bind])
  | ok a =>
      exact ⟨a, rfl, by simpa [Bind.bind, Except.bind] using h⟩

theorem getDimSize_ok {o : Option Nat} {n : Nat} (h : getDimSize o = .ok n) :
    o = some n := by
  cases o with
  | none => exact absurd h (by simp [getDimSize])
  | some m => simpa [getDimSize] using h

/-! ## Inversion of the decoders -/

theorem tmsradRead_dims {f : TmsNcFile} {b : TmsradBuffers}
    (h : tmsradRead f = .ok b) :
    f.dimSpots = some b.dimspot ∧ f.dimScans = some b.dimscan ∧
      f.dimChannels = some b.dimchan := by
  unfold tmsradRead at h
  obtain ⟨d1, h1, h⟩ := ebind_ok h
  obtain ⟨d2, h2, h⟩ := ebind_ok h
  obtain ⟨d3, h3, h⟩ := ebind_ok h
  obtain ⟨_, _, h⟩ := ebind_ok h
  obtain ⟨_, _, h⟩ := ebind_ok h
  obtain ⟨_, _, h⟩ := ebind_ok h
  obtain ⟨_, _, h⟩ := ebind_ok h
  obtain ⟨_, _, h⟩ := ebind_ok h
  obtain ⟨_, _, h⟩ := ebind_ok h
  obtain ⟨_, _, h⟩ := ebind_ok h
  obtain ⟨_, _, h⟩ := ebind_ok h
  obtain ⟨_, _, h⟩ := ebind_ok h
  obtain ⟨_, _, h⟩ := ebind_ok h
  obtain ⟨_, _, h⟩ := ebind_ok h
  obtain ⟨_, _, h⟩ := ebind_ok h
  obtain ⟨_, _, h⟩ := ebind_ok h
  obtain ⟨_, _, h⟩ := ebind_ok h
  obtain ⟨_, _, h⟩ := ebind_ok h
  obtain ⟨_, _, h⟩ := ebind_ok h
  obtain ⟨_, _, h⟩ := ebind_ok h
  obtain ⟨_, _, h⟩ := ebind_ok h
  have hb := Except.ok.inj h
  subst hb
  exact ⟨getDimSize_ok h1, getDimSize_ok h2, getDimSize_ok h3⟩

theorem tmsrad2Ioda_ok_inv {cfg : TmsConfig} {f : TmsNcFile} {iv : IodaVars}
    (ho : f.openable = true) (h : tmsrad2Ioda cfg f = .ok iv) :
    ∃ b, tmsradRead f = .ok b ∧ tmsradCompute cfg b = .ok iv := by
  unfold tmsrad2Ioda at h
  rw [ho] at h
  simp only [Bool.true_eq_false, if_false] at h
  exact ebind_ok h

theorem tmsBrightnessT2Ioda_ok_inv {cfg : TmsConfig} {f : TmsNcFile}
    {iv : IodaVars} (ho : f.openable = true)
    (h : tmsBrightnessT2Ioda cfg f = .ok iv) :
    ∃ b, tbrRead f = .ok b ∧ tbrCompute cfg b = .ok iv := by
  unfold tmsBrightnessT2Ioda at h
  rw [ho] at h
  simp only [Bool.true_eq_false, if_false] at h
  exact ebind_ok h

/-- The state invariant of the Tmsrad2Ioda fill loop: the location and
channel counts fixed at construction, the per-location and per-cell column
lengths, and the untouched observation-error column. -/
def Qtms (nlocs nchan : Nat) (iv : IodaVars) : Prop :=
  iv.location = nlocs ∧ iv.channel = nchan ∧
    iv.latitude.length = nlocs ∧ iv.longitude.length = nlocs ∧
    iv.datetime.length = nlocs ∧
    iv.obsVal.length = nlocs * nchan ∧ iv.preQc.length = nlocs * nchan ∧
    iv.obsError = List.replicate (nlocs * nchan) 0

theorem tmsradFillCell_preserves (b : TmsradBuffers) (channels : List Int)
    (epochTime : Nat → Int) (mask : List (List Nat)) (nlocs : Nat)
    (st : IodaVars × Nat) (ij : Nat × Nat)
    (hq : Qtms nlocs channels.length st.1) :
    Qtms nlocs channels.length
      ((tmsradFillCell b channels epochTime mask st ij).1) := by
  obtain ⟨h1, h2, h3, h4, h5, h6, h7, h8⟩ := hq
  unfold tmsradFillCell
  dsimp only
  split
  · exact ⟨h1, h2, h3, h4, h5, h6, h7, h8⟩
  · dsimp only
    refine foldl_preserve (fun iv => Qtms nlocs channels.length iv) _ ?_ _ _ ?_
    · intro s k hs
      obtain ⟨g1, g2, g3, g4, g5, g6, g7, g8⟩ := hs
      exact ⟨g1, g2, g3, g4, g5, by simpa using g6, by simpa using g7,
        by simpa using g8⟩
    · exact ⟨h1, h2, by simpa using h3, by simpa using h4, by simpa using h5,
        h6, h7, h8⟩

/-- The state invariant of the TmsBrightnessT2Ioda fill loop (the
observation-error column is written there, so it is not tracked). -/
def Qtbr (nlocs nchan : Nat) (iv : IodaVars) : Prop :=
  iv.location = nlocs ∧ iv.channel = nchan ∧
    iv.latitude.length = nlocs ∧ iv.longitude.length = nlocs ∧
    iv.datetime.length = nlocs ∧
    iv.obsVal.length = nlocs * nchan ∧ iv.preQc.length = nlocs * nchan

theorem tbrFillCell_preserves (b : TbrBuffers) (channels : List Int) (t : ℚ)
    (u : Nat → ℚ) (epochTime : Nat → Int) (nlocs : Nat)
    (st : IodaVars × Nat × Nat) (ij : Nat × Nat)
    (hq : Qtbr nlocs channels.length st.1) :
    Qtbr nlocs channels.length
      ((tbrFillCell b channels t u epochTime st ij).1) := by
  obtain ⟨h1, h2, h3, h4, h5, h6, h7⟩ := hq
  unfold tbrFillCell
  dsimp only
  split
  · exact ⟨h1, h2, h3, h4, h5, h6, h7⟩
  · dsimp only
    refine foldl_preserve (fun iv => Qtbr nlocs channels.length iv) _ ?_ _ _ ?_
    · intro s k hs
      obtain ⟨g1, g2, g3, g4, g5, g6, g7⟩ := hs
      exact ⟨g1, g2, g3, g4, g5, by simpa using g6, by simpa using g7⟩
    · exact ⟨h1, h2, by simpa using h3, by simpa using h4, by simpa using h5,
        h6, h7⟩

theorem tmsradCompute_inv {cfg : TmsConfig} {b : TmsradBuffers} {iv : IodaVars}
    (h : tmsradCompute cfg b = .ok iv) :
    ∃ channels, parseChannels cfg.channel = .ok channels ∧
      iv.location =
        countOnes (tmsradMask b.dimspot b.dimscan cfg.thinningThreshold) ∧
      iv.channel = channels.length ∧
      iv.latitude.length = iv.location ∧
      iv.longitude.length = iv.location ∧
      iv.datetime.length = iv.location ∧
      iv.obsVal.length = iv.location * iv.channel ∧
      iv.preQc.length = iv.location * iv.channel ∧
      iv.obsError = List.replicate (iv.location * iv.channel) 0 := by
  unfold tmsradCompute at h
  obtain ⟨channels, hp, h⟩ := ebind_ok h
  have hiv := Except.ok.inj h
  subst hiv
  refine ⟨channels, hp, ?_⟩
  have hQ := foldl_preserve
    (fun st : IodaVars × Nat =>
      Qtms (countOnes (tmsradMask b.dimspot b.dimscan cfg.thinningThreshold))
        channels.length st.1)
    (tmsradFillCell b channels
      (fun j => tmsradScanEpoch (b.yr j) (b.mo j) (b.dy j) (b.hr j) (b.mi j)
        (b.se j))
      (tmsradMask b.dimspot b.dimscan cfg.thinningThreshold))
    (fun st ij hst => tmsradFillCell_preserves _ _ _ _ _ st ij hst)
    ((List.range b.dimspot).flatMap fun i =>
      (List.range b.dimscan).map fun j => (i, j))
    ({ IodaVars.make
        (countOnes (tmsradMask b.dimspot b.dimscan cfg.thinningThreshold))
        channels.length tmsradFloatMetadataNames [] with
        referenceDate := "seconds since 1970-01-01T00:00:00Z"
        channelValues := (List.range channels.length).foldl
          (fun cv k => cv.set k (channels.getD k 0))
          (IodaVars.make
            (countOnes (tmsradMask b.dimspot b.dimscan cfg.thinningThreshold))
            channels.length tmsradFloatMetadataNames []).channelValues }, 0)
    (by
      refine ⟨rfl, rfl, ?_, ?_, ?_, ?_, ?_, ?_⟩ <;> simp [IodaVars.make])
  obtain ⟨g1, g2, g3, g4, g5, g6, g7, g8⟩ := hQ
  exact ⟨g1, g2, by rw [g1]; exact g3, by rw [g1]; exact g4,
    by rw [g1]; exact g5, by rw [g1, g2]; exact g6, by rw [g1, g2]; exact g7,
    by rw [g1, g2]; exact g8⟩

theorem tbrCompute_inv {cfg : TmsConfig} {b : TbrBuffers} {iv : IodaVars}
    (h : tbrCompute cfg b = .ok iv) :
    ∃ channels, parseChannels cfg.channel = .ok channels ∧
      iv.location =
        countOnes (thinRows cfg.thinningThreshold (drawU 42) 0
          b.dimspot b.dimscan).1 ∧
      iv.channel = channels.length ∧
      iv.latitude.length = iv.location ∧
      iv.longitude.length = iv.location ∧
      iv.datetime.length = iv.location ∧
      iv.obsVal.length = iv.location * iv.channel ∧
      iv.preQc.length = iv.location * iv.channel := by
  unfold tbrCompute at h
  obtain ⟨channels, hp, h⟩ := ebind_ok h
  have hiv := Except.ok.inj h
  subst hiv
  refine ⟨channels, hp, ?_⟩
  have hQ := foldl_preserve
    (fun st : IodaVars × Nat × Nat =>
      Qtbr
        (countOnes (thinRows cfg.thinningThreshold (drawU 42) 0
          b.dimspot b.dimscan).1)
        channels.length st.1)
    (tbrFillCell b channels cfg.thinningThreshold (drawU 42)
      (fun j => tmsBrightnessScanEpoch (b.yr j) (b.mo j) (b.dy j) (b.hr j)
        (b.mi j) (b.se j)))
    (fun st ij hst => tbrFillCell_preserves _ _ _ _ _ _ st ij hst)
    ((List.range b.dimspot).flatMap fun i =>
      (List.range b.dimscan).map fun j => (i, j))
    ({ IodaVars.make3
        (countOnes (thinRows cfg.thinningThreshold (drawU 42) 0
          b.dimspot b.dimscan).1) [] [] with
        channel := channels.length
        obsVal := resizeCol
          ((countOnes (thinRows cfg.thinningThreshold (drawU 42) 0
            b.dimspot b.dimscan).1) * channels.length)
        obsError := resizeCol
          ((countOnes (thinRows cfg.thinningThreshold (drawU 42) 0
            b.dimspot b.dimscan).1) * channels.length)
        preQc := resizeColInt
          ((countOnes (thinRows cfg.thinningThreshold (drawU 42) 0
            b.dimspot b.dimscan).1) * channels.length)
        referenceDate := "seconds since 1970-01-01T00:00:00Z"
        channelValues := (List.range channels.length).foldl
          (fun cv k => cv.set k (channels.getD k 0))
          (IodaVars.make3
            (countOnes (thinRows cfg.thinningThreshold (drawU 42) 0
              b.dimspot b.dimscan).1) [] []).channelValues },
      0,
      (thinRows cfg.thinningThreshold (drawU 42) 0 b.dimspot b.dimscan).2)
    (by
      refine ⟨rfl, rfl, ?_, ?_, ?_, ?_, ?_⟩ <;>
        simp [IodaVars.make3, IodaVars.make, resizeCol, resizeColInt])
  obtain ⟨g1, g2, g3, g4, g5, g6, g7⟩ := hQ
  exact ⟨g1, g2, by rw [g1]; exact g3, by rw [g1]; exact g4,
    by rw [g1]; exact g5, by rw [g1, g2]; exact g6, by rw [g1, g2]; exact g7⟩

/-! ## Claim theorems -/

/-- C1: the reproducibility claim requires bit-identical inclusion decisions
across the counting pass and the fill pass of one decode.  Tmsrad2Ioda
materializes the mask once, but TmsBrightnessT2Ioda re-draws from the same
advanced generator in its fill pass: on a 1 by 1 grid with threshold one
half, the counting pass includes the cell (first draw above one half) and
allocates one location, while the fill pass re-draws (second draw below one
half), skips the cell, and returns the allocated row never written — the
latitude row keeps its construction value 0 although the buffer holds 7.
Tmsrad2Ioda on the same input fills the row from the shared mask. -/
theorem c1_dual_pass_desync :
    drawU 42 0 > mkRat 1 2
    ∧ drawU 42 1 ≤ mkRat 1 2
    ∧ (thinRows (mkRat 1 2) (drawU 42) 0 1 1).1 = [[1]]
    ∧ (tmsBrightnessT2Ioda c1Cfg c1File).map (fun iv => iv.location) = .ok 1
    ∧ (tmsBrightnessT2Ioda c1Cfg c1File).map (fun iv => iv.latitude) = .ok [0]
    ∧ (tmsrad2Ioda c1Cfg c1File).map (fun iv => iv.latitude) = .ok [7] := by
  decide

/-- C2: on the 2 spot by 3 scan by 2 channel grid with threshold 0 every
cell is kept, the table has exactly 6 locations, the configured channel
order 2, 1 is preserved, and the observed-value column is location-major:
table index channelCount * loc + k holds raw flat element
(i * scanCount + j) * rawChannelCount + (channels k - 1) with
loc = i * scanCount + j the traversal rank. -/
theorem c2_end_to_end_layout :
    (tmsrad2Ioda c2Cfg c2File).map (fun iv => iv.location) = .ok 6
    ∧ parseChannels c2Cfg.channel = .ok [2, 1]
    ∧ (tmsrad2Ioda c2Cfg c2File).map (fun iv => iv.channelValues) = .ok [2, 1]
    ∧ (tmsrad2Ioda c2Cfg c2File).map (fun iv => iv.obsVal) = .ok c2ExpectedObsVal := by
  decide

/-- C3: the flag codec returns 1 iff the raw value masked with the bad-bit
mask of the claim (combinedQualityFlag bits 3, 4, 5, 6, 7, 8, 9, 13, 14, 15,
1-based) is nonzero or the auxiliary byte is nonzero; an all-clear value
yields 0, any single mapped bit yields 1, and values with only unmapped bits
yield 0.  The codec is a Lean function of its two arguments, so it is pure by
construction. -/
theorem c3_flag_codec (raw aux : Nat) :
    (repackOne raw aux = if raw &&& c3SpecMask ≠ 0 ∨ aux ≠ 0 then 1 else 0)
    ∧ (repackOne raw aux = 1 ↔ (raw &&& c3SpecMask ≠ 0 ∨ aux ≠ 0))
    ∧ (raw &&& c3SpecMask = 0 → aux = 0 → repackOne raw aux = 0)
    ∧ (∀ b, b ∈ c3MappedBits → repackOne (1 <<< b) 0 = 1) := by
  have hm : MASK_ALL = c3SpecMask := by decide
  refine ⟨?_, ?_, ?_, ?_⟩
  · unfold repackOne
    rw [hm]
  · unfold repackOne
    rw [hm]
    split
    · simp_all
    · simp_all
  · intro h1 h2
    unfold repackOne
    rw [hm]
    simp [h1, h2]
  · intro b hb
    fin_cases hb <;> decide

/-- C3 witness: the codec evaluated through the theorem at concrete inputs:
bit 3 of the claim mask raises the flag, the all-clear input stays good, a
value with only the unmapped bit 2 (1-based) stays good, and a nonzero
auxiliary byte alone raises the flag. -/
theorem c3_flag_codec_witness :
    repackOne 4 0 = 1 ∧ repackOne 0 0 = 0 ∧ repackOne 2 0 = 0 ∧
      repackOne 0 9 = 1 := by
  refine ⟨?_, ?_, ?_, ?_⟩
  · exact (c3_flag_codec 4 0).2.2.2 2 (by decide)
  · exact (c3_flag_codec 0 0).2.2.1 (by decide) (by decide)
  · exact (c3_flag_codec 2 0).2.2.1 (by decide) (by decide)
  · exact (c3_flag_codec 0 9).2.1.mpr (Or.inr (by decide))

/-- C4: the per-scan conversion of Tmsrad2Ioda is the proleptic Gregorian
UTC epoch conversion — (1970,1,1,0,0,0) maps to 0, the leap second 60 is
clamped to 59, and a generic date matches the reference epoch value — but
the conversion of TmsBrightnessT2Ioda fills tm_year with Year - 1970 and
tm_mday with Day - 1, so the same epoch input maps to -2209075200
(1899-12-31T00:00:00Z), not 0, contradicting the reference-epoch string the
decoder itself sets. -/
theorem c4_time_normalizer :
    tmsradScanEpoch 1970 1 1 0 0 0 = 0
    ∧ tmsradScanEpoch 1970 1 1 0 0 60 = 59
    ∧ tmsradScanEpoch 1970 1 1 0 0 59 = 59
    ∧ tmsradScanEpoch 2025 4 28 18 0 0 = 1745863200
    ∧ tmsBrightnessScanEpoch 1970 1 1 0 0 0 = -2209075200 := by
  decide

/-- C5: for draws in the open unit interval, cell (i, j) of the counting
pass is decided by exactly the draw of rank i * dimscan + j of the shared
stream (outer-spot, inner-scan order), the stream advances exactly once per
cell over the whole grid, threshold 0 includes every cell and threshold 1
includes none. -/
theorem c5_thinner_rule (dimspot dimscan : Nat) (t : ℚ) (u : Nat → ℚ)
    (hu : ∀ k, k < dimspot * dimscan → 0 < u k ∧ u k < 1)
    (i j : Nat) (hi : i < dimspot) (hj : j < dimscan) :
    ((thinRows t u 0 dimspot dimscan).1.getD i []).getD j 0
        = (if u (i * dimscan + j) > t then 1 else 0)
    ∧ (thinRows t u 0 dimspot dimscan).2 = dimspot * dimscan
    ∧ (t = 0 → ((thinRows t u 0 dimspot dimscan).1.getD i []).getD j 0 = 1)
    ∧ (t = 1 → ((thinRows t u 0 dimspot dimscan).1.getD i []).getD j 0 = 0) := by
  have hcell := thin_cell t u dimspot dimscan i j hi hj
  have hlt : i * dimscan + j < dimspot * dimscan := by
    calc i * dimscan + j < i * dimscan + dimscan := by omega
      _ = (i + 1) * dimscan := by ring
      _ ≤ dimspot * dimscan := Nat.mul_le_mul_right _ (by omega)
  obtain ⟨hu0, hu1⟩ := hu _ hlt
  refine ⟨hcell, ?_, ?_, ?_⟩
  · simpa using thinRows_snd t u 0 dimspot dimscan
  · intro ht
    subst ht
    rw [hcell, if_pos hu0]
  · intro ht
    subst ht
    rw [hcell, if_neg (not_lt.mpr hu1.le)]

/-- C5 witness: the rule instantiated on a 1 by 2 grid with the concrete
stream of the decoders and threshold one half. -/
theorem c5_thinner_rule_witness :
    ((thinRows (mkRat 1 2) (drawU 42) 0 1 2).1.getD 0 []).getD 1 0
        = (if drawU 42 (0 * 2 + 1) > mkRat 1 2 then 1 else 0)
    ∧ (thinRows (mkRat 1 2) (drawU 42) 0 1 2).2 = 1 * 2
    ∧ (mkRat 1 2 = 0 →
        ((thinRows (mkRat 1 2) (drawU 42) 0 1 2).1.getD 0 []).getD 1 0 = 1)
    ∧ (mkRat 1 2 = 1 →
        ((thinRows (mkRat 1 2) (drawU 42) 0 1 2).1.getD 0 []).getD 1 0 = 0) := by
  have hu : ∀ k, k < 1 * 2 → 0 < drawU 42 k ∧ drawU 42 k < 1 := by decide
  exact c5_thinner_rule 1 2 (mkRat 1 2) (drawU 42) hu 0 1 (by decide) (by decide)

/-- C6 counterexample: a readable file missing the spots dimension, and one
missing the longitude variable, make providerToIodaVars raise the netCDF
null-object exception past the decoder boundary instead of returning an
empty table — only the open itself is inside the try block of the source. -/
theorem c6_missing_dim_raises :
    tmsrad2Ioda c9Cfg c6FileNoDim = .error DecodeErr.ncNullDim
    ∧ tmsBrightnessT2Ioda c9Cfg c6FileNoDim = .error DecodeErr.ncNullDim
    ∧ tmsrad2Ioda c9Cfg c6FileNoVar = .error DecodeErr.ncNullVar
    ∧ tmsBrightnessT2Ioda c9Cfg c6FileNoVar = .error DecodeErr.ncNullVar := by
  decide

/-- C6 (amended): a file-open failure is caught and yields the empty table
with zero locations in both decoders; but a readable file with an absent
required dimension raises the netCDF exception past providerToIodaVars. -/
theorem c6_open_failure_only (cfg : TmsConfig) (f : TmsNcFile) :
    (f.openable = false →
        tmsrad2Ioda cfg f = .ok (IodaVars.make 0 1 [] [])
        ∧ tmsBrightnessT2Ioda cfg f = .ok (IodaVars.make3 0 [] [])
        ∧ (IodaVars.make 0 1 [] []).location = 0
        ∧ (IodaVars.make3 0 [] []).location = 0)
    ∧ (f.openable = true → f.dimSpots = none →
        tmsrad2Ioda cfg f = .error DecodeErr.ncNullDim
        ∧ tmsBrightnessT2Ioda cfg f = .error DecodeErr.ncNullDim) := by
  constructor
  · intro ho
    refine ⟨?_, ?_, rfl, rfl⟩
    · unfold tmsrad2Ioda
      rw [ho]
      simp
    · unfold tmsBrightnessT2Ioda
      rw [ho]
      simp
  · intro ho hd
    constructor
    · unfold tmsrad2Ioda
      rw [ho]
      simp only [Bool.true_eq_false, if_false]
      unfold tmsradRead
      rw [hd]
      simp [getDimSize, Bind.bind, Except.bind]
    · unfold tmsBrightnessT2Ioda
      rw [ho]
      simp only [Bool.true_eq_false, if_false]
      unfold tbrRead
      rw [hd]
      simp [getDimSize, Bind.bind, Except.bind]

/-- C6 witness: the amended behavior at concrete files — an unreadable file
yields the empty tables, a readable file without the spots dimension raises. -/
theorem c6_open_failure_only_witness :
    (tmsrad2Ioda c9Cfg c6FileClosed = .ok (IodaVars.make 0 1 [] [])
      ∧ tmsBrightnessT2Ioda c9Cfg c6FileClosed = .ok (IodaVars.make3 0 [] [])
      ∧ (IodaVars.make 0 1 [] []).location = 0
      ∧ (IodaVars.make3 0 [] []).location = 0)
    ∧ (tmsrad2Ioda c9Cfg c6FileNoDim = .error DecodeErr.ncNullDim
      ∧ tmsBrightnessT2Ioda c9Cfg c6FileNoDim = .error DecodeErr.ncNullDim) :=
  ⟨(c6_open_failure_only c9Cfg c6FileClosed).1 rfl,
   (c6_open_failure_only c9Cfg c6FileNoDim).2 rfl rfl⟩

/-- C7: every decode result of either decoder satisfies the shape invariant:
per-location columns of length locationCount and per-cell columns of length
locationCount times channelCount, including the empty table returned for a
file that fails to open. -/
theorem c7_shape_invariant (cfg : TmsConfig) (f : TmsNcFile) :
    tableShapeOk (tmsrad2Ioda cfg f) ∧ tableShapeOk (tmsBrightnessT2Ioda cfg f) := by
  constructor
  · cases hr : tmsrad2Ioda cfg f with
    | error e => exact trivial
    | ok iv =>
        by_cases ho : f.openable = true
        · obtain ⟨b, hb, hc⟩ := tmsrad2Ioda_ok_inv ho hr
          obtain ⟨ch, hp, hloc, hch, g4, g5, g6, g7, g8, g9⟩ :=
            tmsradCompute_inv hc
          exact ⟨g4, g5, g6, g7, g8⟩
        · have ho2 : f.openable = false := by
            revert ho; cases f.openable <;> simp
          unfold tmsrad2Ioda at hr
          rw [ho2] at hr
          simp only [if_pos] at hr
          have hiv := Except.ok.inj hr
          subst hiv
          exact ⟨by simp [IodaVars.make], by simp [IodaVars.make],
            by simp [IodaVars.make], by simp [IodaVars.make],
            by simp [IodaVars.make]⟩
  · cases hr : tmsBrightnessT2Ioda cfg f with
    | error e => exact trivial
    | ok iv =>
        by_cases ho : f.openable = true
        · obtain ⟨b, hb, hc⟩ := tmsBrightnessT2Ioda_ok_inv ho hr
          obtain ⟨ch, hp, hloc, hch, g4, g5, g6, g7, g8⟩ :=
            tbrCompute_inv hc
          exact ⟨g4, g5, g6, g7, g8⟩
        · have ho2 : f.openable = false := by
            revert ho; cases f.openable <;> simp
          unfold tmsBrightnessT2Ioda at hr
          rw [ho2] at hr
          simp only [if_pos] at hr
          have hiv := Except.ok.inj hr
          subst hiv
          exact ⟨by simp [IodaVars.make3, IodaVars.make],
            by simp [IodaVars.make3, IodaVars.make],
            by simp [IodaVars.make3, IodaVars.make],
            by simp [IodaVars.make3, IodaVars.make],
            by simp [IodaVars.make3, IodaVars.make]⟩

/-- C8 counterexample: channel 3 of a 2-channel file is outside
[1, channelCountInFile], yet the decode completes without any error and
reads the out-of-range flat element 2 of the 2-element raw buffer — the
out-of-range index is used silently, no ConfigError stops the run. -/
theorem c8_out_of_range_silent :
    parseChannels c8Cfg.channel = .ok [3]
    ∧ ((3 : Int) < 1 ∨ (c8Buffers.dimchan : Int) < 3)
    ∧ (tmsrad2Ioda c8Cfg c8File).map (fun iv => iv.location) = .ok 1
    ∧ (tmsrad2Ioda c8Cfg c8File).map (fun iv => iv.obsVal)
        = .ok [c8Buffers.tb 2] := by
  decide

/-- C8 (amended): a non-integer token makes std::stoi throw during the
per-file decode — after the file has been opened and read, not before any
file is touched — and the exception escapes providerToIodaVars; a channel
list that parses is used with no bounds validation, the decode always
completing. -/
theorem c8_no_bounds_validation (cfg : TmsConfig) (f : TmsNcFile)
    (b : TmsradBuffers) :
    (f.openable = true → tmsradRead f = .ok b →
        parseChannels cfg.channel = .error .stoiInvalid →
        tmsrad2Ioda cfg f = .error .stoiInvalid)
    ∧ (∀ cs, f.openable = true → tmsradRead f = .ok b →
        parseChannels cfg.channel = .ok cs →
        (tmsrad2Ioda cfg f).isOk = true) := by
  constructor
  · intro ho hb hp
    unfold tmsrad2Ioda
    rw [ho]
    simp only [Bool.true_eq_false, if_false]
    rw [hb]
    simp only [Bind.bind, Except.bind]
    unfold tmsradCompute
    rw [hp]
    simp [Bind.bind, Except.bind]
  · intro cs ho hb hp
    unfold tmsrad2Ioda
    rw [ho]
    simp only [Bool.true_eq_false, if_false]
    rw [hb]
    simp only [Bind.bind, Except.bind]
    unfold tmsradCompute
    rw [hp]
    simp [Bind.bind, Except.bind, Except.isOk, Except.toBool, pure, Except.pure]

/-- C8 witness: the amended behavior at concrete inputs — the token x
aborts the decode with the stoi exception, while the out-of-range channel 3
decodes without complaint. -/
theorem c8_no_bounds_validation_witness :
    tmsrad2Ioda c8BadCfg c8File = .error .stoiInvalid
    ∧ (tmsrad2Ioda c8Cfg c8File).isOk = true :=
  ⟨(c8_no_bounds_validation c8BadCfg c8File c8Buffers).1 rfl rfl (by decide),
   (c8_no_bounds_validation c8Cfg c8File c8Buffers).2 [3] rfl rfl (by decide)⟩

/-- C9 counterexample: on a kept cell, Tmsrad2Ioda writes the observed value
(5, from the raw buffer) and the quality flag, but never writes the
observation-error column: the cell keeps the construction value 0 of the
freshly allocated table, equal to the constructor output. -/
theorem c9_obserror_left_default :
    tmsrad2Ioda c9Cfg c9File = .ok c9Table
    ∧ c9Table.obsVal = [5]
    ∧ c9Table.obsError = [0]
    ∧ (IodaVars.make 1 1 tmsradFloatMetadataNames []).obsError = [0] := by
  decide

/-- C9 (amended): the fill pass of Tmsrad2Ioda writes the observed-value and
quality columns of every kept cell but leaves the whole observation-error
column at its construction default, for every configuration and input. -/
theorem c9_obserror_never_written {cfg : TmsConfig} {f : TmsNcFile}
    {iv : IodaVars} (h : tmsrad2Ioda cfg f = .ok iv) :
    iv.obsError = List.replicate (iv.location * iv.channel) 0 := by
  by_cases ho : f.openable = true
  · obtain ⟨b, hb, hc⟩ := tmsrad2Ioda_ok_inv ho h
    obtain ⟨ch, hp, _, _, _, _, _, _, _, g9⟩ := tmsradCompute_inv hc
    exact g9
  · have ho2 : f.openable = false := by
      revert ho; cases f.openable <;> simp
    unfold tmsrad2Ioda at h
    rw [ho2] at h
    simp only [if_pos] at h
    have hiv := Except.ok.inj h
    subst hiv
    simp [IodaVars.make]

/-- C9 witness: the amended statement through the theorem at the concrete
quality scenario. -/
theorem c9_obserror_never_written_witness :
    tmsrad2Ioda c9Cfg c9File = .ok c9Table
    ∧ c9Table.obsError = List.replicate (c9Table.location * c9Table.channel) 0 := by
  have h : tmsrad2Ioda c9Cfg c9File = .ok c9Table := by decide
  exact ⟨h, c9_obserror_never_written h⟩

/-- C10: the generator is seeded with the constant 42 inside every call of
providerToIodaVars, so two Tmsrad2Ioda decodes over files of the same
(spot, scan) shape with the same threshold compute the identical mask — the
location count of both tables is the count of ones of the shape-and-threshold
mask, independent of every data value of the files. -/
theorem c10_mask_fixed_seed {cfg1 cfg2 : TmsConfig} {f1 f2 : TmsNcFile}
    {iv1 iv2 : IodaVars} {s c : Nat}
    (ht : cfg1.thinningThreshold = cfg2.thinningThreshold)
    (h1s : f1.dimSpots = some s) (h1c : f1.dimScans = some c)
    (h2s : f2.dimSpots = some s) (h2c : f2.dimScans = some c)
    (ho1 : f1.openable = true) (ho2 : f2.openable = true)
    (hd1 : tmsrad2Ioda cfg1 f1 = .ok iv1)
    (hd2 : tmsrad2Ioda cfg2 f2 = .ok iv2) :
    iv1.location = countOnes (tmsradMask s c cfg1.thinningThreshold)
    ∧ iv2.location = iv1.location := by
  obtain ⟨b1, hb1, hc1⟩ := tmsrad2Ioda_ok_inv ho1 hd1
  obtain ⟨b2, hb2, hc2⟩ := tmsrad2Ioda_ok_inv ho2 hd2
  obtain ⟨hs1, hq1, _⟩ := tmsradRead_dims hb1
  obtain ⟨hs2, hq2, _⟩ := tmsradRead_dims hb2
  rw [h1s] at hs1
  rw [h1c] at hq1
  rw [h2s] at hs2
  rw [h2c] at hq2
  have e1s := Option.some.inj hs1
  have e1c := Option.some.inj hq1
  have e2s := Option.some.inj hs2
  have e2c := Option.some.inj hq2
  obtain ⟨ch1, _, hl1, _⟩ := tmsradCompute_inv hc1
  obtain ⟨ch2, _, hl2, _⟩ := tmsradCompute_inv hc2
  constructor
  · rw [hl1, e1s, e1c]
  · rw [hl2, hl1, ← e2s, ← e2c, ← e1s, ← e1c, ht]

/-- C10 witness: two decodes over 1 by 1 files that differ in every data
buffer, through the theorem: both tables carry the mask count of the shared
seed-42 stream. -/
theorem c10_mask_fixed_seed_witness :
    c9Table.location = countOnes (tmsradMask 1 1 c9Cfg.thinningThreshold)
    ∧ c10TableB.location = c9Table.location := by
  have h1 : tmsrad2Ioda c9Cfg c9File = .ok c9Table := by decide
  have h2 : tmsrad2Ioda c9Cfg c10FileB = .ok c10TableB := by decide
  exact c10_mask_fixed_seed rfl rfl rfl rfl rfl rfl rfl h1 h2

end ObsForge
